import Mathlib

/-!
Shallow embedding of the althea-net/contact client protocol layer
(src/client/send.rs, src/types.rs) together with the parts of its
environment that the source pattern-matches on.  Definitions mirror the
Rust source; definitions whose Rust counterpart lives outside the
repository snapshot carry a doc comment saying what they model.
-/

/-- Ethereum address as used by clarity::Address: 20 raw bytes.  Bytes are
modelled as Nat values below 256. -/
structure EthAddress where
  bytes : List Nat
deriving DecidableEq

/-- The all-zero 20 byte address. -/
def zeroEthAddress : EthAddress := ⟨List.replicate 20 0⟩

/-- Sample nonzero address used in concrete counterexamples. -/
def exAddr : EthAddress := ⟨List.replicate 20 17⟩

/-- Modelled from the spec: actix_web::client::ConnectError, the connection
error classification of the external HTTP client (only the variants the
source matches on plus representatives of the others). -/
inductive ConnectError
  | disconnected
  | noRecords
  | unresolved
deriving DecidableEq

/-- Modelled from the spec: actix_web::client::SendRequestError, the send
error of the external HTTP client (variants the source matches on plus a
representative timeout variant). -/
inductive SendRequestError
  | connect (e : ConnectError)
  | timedOut
deriving DecidableEq

/-- Error type of the JSON-RPC layer as used by src/client/send.rs.  The
copy of src/jsonrpc/error.rs in the snapshot is an earlier revision with
FailedToSend carrying a String and no BadInput variant; the variants here
follow the constructors and patterns that src/client/send.rs itself uses,
which the spec error taxonomy (section 7) also describes. -/
inductive JsonRpcError
  | badResponse (s : String)
  | failedToSend (e : SendRequestError)
  | responseError (code : Int) (message : String) (data : String)
  | badInput (s : String)
deriving DecidableEq

/-- The one transient error retried by retry_on_block:
FailedToSend(Connect(Disconnected)). -/
def transientErr : JsonRpcError :=
  JsonRpcError.failedToSend (SendRequestError.connect ConnectError.disconnected)

/-! ## ABI token encoding (checkpoint encoder) -/

/-- ABI tokens, restricted to the variants that send_valset_confirm builds:
two fixed-width strings, a uint256 nonce, a dynamic address array and a
dynamic uint256 array. -/
inductive Token
  | fixedString (s : String)
  | uint (n : Nat)
  | addressArray (as : List EthAddress)
  | uintArray (ns : List Nat)
deriving DecidableEq

/-- Modelled from the spec: fixed-width (bytes32) encoding of a string per
the standard ABI rules the spec names in section 4.3 (the clarity crate
encoder is outside this repository): the UTF-8 bytes, truncated to 32 and
right padded with zero bytes to width 32. -/
def fixedBytes32 (s : String) : List Nat :=
  let bs := (s.toUTF8.toList.map (fun b => b.toNat)).take 32
  bs ++ List.replicate (32 - bs.length) 0

/-- Modelled from the spec: big-endian fixed-width (32 byte) encoding of an
unsigned integer per the standard ABI rules of section 4.3. -/
def beBytes32 (n : Nat) : List Nat :=
  (List.range 32).map (fun i => n / 256 ^ (31 - i) % 256)

/-- Modelled from the spec: ABI encoding of an address as a 32 byte word,
left padded with zero bytes. -/
def addressBytes32 (a : EthAddress) : List Nat :=
  List.replicate (32 - a.bytes.length) 0 ++ a.bytes

/-- Whether a token is dynamically sized (encoded in the tail with an
offset in the head) under the standard ABI rules. -/
def tokenIsDynamic : Token → Bool
  | Token.fixedString _ => false
  | Token.uint _ => false
  | Token.addressArray _ => true
  | Token.uintArray _ => true

/-- Head word of a statically sized token. -/
def tokenStaticBytes : Token → List Nat
  | Token.fixedString s => fixedBytes32 s
  | Token.uint n => beBytes32 n
  | Token.addressArray _ => []
  | Token.uintArray _ => []

/-- Tail bytes of a dynamically sized token: 32 byte length followed by the
32 byte words of the elements. -/
def tokenTail : Token → List Nat
  | Token.fixedString _ => []
  | Token.uint _ => []
  | Token.addressArray as => beBytes32 as.length ++ (as.map addressBytes32).flatten
  | Token.uintArray ns => beBytes32 ns.length ++ (ns.map beBytes32).flatten

/-- Head and tail sections of the ABI encoding of a token list, given the
offset at which the next tail byte would land. -/
def encodeTokensAux : List Token → Nat → List Nat × List Nat
  | [], _ => ([], [])
  | t :: ts, off =>
    if tokenIsDynamic t then
      let tl := tokenTail t
      let rest := encodeTokensAux ts (off + tl.length)
      (beBytes32 off ++ rest.1, tl ++ rest.2)
    else
      let rest := encodeTokensAux ts off
      (tokenStaticBytes t ++ rest.1, rest.2)

/-- Modelled from the spec: the clarity crate encode_tokens (outside this
repository); standard ABI tuple encoding per section 4.3: one 32 byte head
word per token (value for static tokens, tail offset for dynamic tokens)
followed by the concatenated tails. -/
def encode_tokens (ts : List Token) : List Nat :=
  let r := encodeTokensAux ts (32 * ts.length)
  r.1 ++ r.2

/-! ## filter_empty_addresses and the checkpoint message (src/client/send.rs) -/

/-- Mirrors filter_empty_addresses in src/client/send.rs lines 271 to 286:
walks the optional address list, collecting the addresses in order and
returning BadInput as soon as a None is found. -/
def filter_empty_addresses : List (Option EthAddress) → Except JsonRpcError (List EthAddress)
  | [] => Except.ok []
  | some a :: rest =>
    match filter_empty_addresses rest with
    | Except.ok l => Except.ok (a :: l)
    | Except.error e => Except.error e
  | none :: _ => Except.error (JsonRpcError.badInput "All Eth Addresses must be set")

/-- A valset as consumed by send_valset_confirm (the ValsetResponse shape of
src/types.rs lines 138 to 143): nonce, powers and optional addresses. -/
structure ValsetResponse where
  nonce : Nat
  powers : List Nat
  eth_addresses : List (Option EthAddress)
deriving DecidableEq

/-- Mirrors the message construction of send_valset_confirm in
src/client/send.rs lines 236 to 242: encode_tokens applied to the peggy id,
the literal string checkpoint, the nonce, the filtered address array and
the power array, with the filter failure propagated. -/
def checkpointMessage (peggy_id : String) (nonce : Nat)
    (eth_addresses : List (Option EthAddress)) (powers : List Nat) :
    Except JsonRpcError (List Nat) :=
  match filter_empty_addresses eth_addresses with
  | Except.error e => Except.error e
  | Except.ok addrs =>
    Except.ok (encode_tokens [Token.fixedString peggy_id,
      Token.fixedString "checkpoint", Token.uint nonce,
      Token.addressArray addrs, Token.uintArray powers])

/-! ## Valset normalization (src/types.rs) -/

/-- Value of a hexadecimal digit character, given as its code point. -/
def hexDigitVal (c : Char) : Option Nat :=
  if 48 ≤ c.toNat ∧ c.toNat ≤ 57 then some (c.toNat - 48)
  else if 97 ≤ c.toNat ∧ c.toNat ≤ 102 then some (c.toNat - 87)
  else if 65 ≤ c.toNat ∧ c.toNat ≤ 70 then some (c.toNat - 55)
  else none

/-- Pairs of hex digits decoded to bytes; fails on a stray digit or a non
hex character. -/
def hexBytes : List Char → Option (List Nat)
  | [] => some []
  | [_] => none
  | c1 :: c2 :: rest =>
    match hexDigitVal c1, hexDigitVal c2, hexBytes rest with
    | some h, some l, some bs => some ((16 * h + l) :: bs)
    | _, _, _ => none

/-- Modelled from the spec: the strict address parse (section 4.1
parse_strict) used by convert; the clarity crate FromStr for Address is
outside this repository.  A 40 hex digit string, with an optional 0x in
front, parses to its 20 bytes; everything else fails. -/
def parseEthAddress (s : String) : Option EthAddress :=
  let t := if s.startsWith "0x" then s.drop 2 else s
  if t.length = 40 then
    match hexBytes t.data with
    | some bs => some ⟨bs⟩
    | none => none
  else none

/-- Raw valset shape after serde has run, as held by ValsetResponseUnparsed
in src/types.rs lines 148 to 156: a parsed nonce, parsed powers and the
address strings still unparsed. -/
structure ValsetResponseUnparsed where
  nonce : Nat
  powers : List Nat
  eth_addresses : List String
deriving DecidableEq

/-- Mirrors the loop body of ValsetResponseUnparsed::convert in
src/types.rs lines 177 to 187: an empty string becomes None, otherwise the
parse result is kept on success and degrades to None on failure. -/
def convertEthAddresses : List String → List (Option EthAddress)
  | [] => []
  | s :: rest =>
    (if s.isEmpty then none
     else
       match parseEthAddress s with
       | some val => some val
       | none => none) :: convertEthAddresses rest

/-- Mirrors ValsetResponseUnparsed::convert in src/types.rs lines 175 to
194: nonce and powers are passed through, the address strings are
normalized. -/
def ValsetResponseUnparsed.convert (v : ValsetResponseUnparsed) : ValsetResponse :=
  { nonce := v.nonce
    powers := v.powers
    eth_addresses := convertEthAddresses v.eth_addresses }

/-- Mirrors ValsetResponseUnparsedWrapper in src/types.rs lines 159 to
164. -/
structure ValsetResponseUnparsedWrapper where
  height : Nat
  result : ValsetResponseUnparsed
deriving DecidableEq

/-- Wrapper shape of ValsetResponseWrapper in src/types.rs lines 131 to
135. -/
structure ValsetResponseWrapper where
  height : Nat
  result : ValsetResponse
deriving DecidableEq

/-- Mirrors ValsetResponseUnparsedWrapper::convert in src/types.rs lines
166 to 173: the height is copied and the inner result converted. -/
def ValsetResponseUnparsedWrapper.convert (w : ValsetResponseUnparsedWrapper) :
    ValsetResponseWrapper :=
  { height := w.height
    result := w.result.convert }

/-! ## Wire-level deserialization of a raw valset entry -/

/-- Decimal digits folded strictly into a number; any non digit fails. -/
def parseDecimalDigits : List Char → Nat → Option Nat
  | [], acc => some acc
  | c :: rest, acc =>
    if 48 ≤ c.toNat ∧ c.toNat ≤ 57 then
      parseDecimalDigits rest (acc * 10 + (c.toNat - 48))
    else none

/-- Modelled from the spec: the strict string to integer wire parse of
section 4.1 (parse_strict), as performed by the serde derived
deserialization of the Powers field in src/types.rs lines 152 to 153,
where each Vec element goes through the num256 Uint256 string
deserializer (outside this repository) and any failure aborts the whole
response.  Decimal strings below 2 to the power 256 parse; the empty
string and any string with a non digit fail. -/
def parseUint256 (s : String) : Option Nat :=
  if s.isEmpty then none
  else
    match parseDecimalDigits s.data 0 with
    | some n => if n < 2 ^ 256 then some n else none
    | none => none

/-- Strict elementwise parse of the power strings: one failure fails the
whole list, exactly as the serde derived Vec deserialization does. -/
def parsePowers : List String → Option (List Nat)
  | [] => some []
  | s :: rest =>
    match parseUint256 s, parsePowers rest with
    | some v, some vs => some (v :: vs)
    | _, _ => none

/-- A valset entry as it appears on the wire, every field still a
string (the RawValsetEntry shape of spec section 3). -/
structure RawValsetEntry where
  nonce : String
  powers : List String
  eth_addresses : List String
deriving DecidableEq

/-- Modelled from the spec: the serde derived deserialization of
ValsetResponseUnparsed in src/types.rs lines 148 to 156.  The Nonce field
goes through parse_val (strict, src/types.rs lines 233 to 241) and the
Powers field elementwise through the strict Uint256 string deserializer;
the address strings stay unparsed.  Any parse failure fails the whole
response. -/
def deserializeValsetResponseUnparsed (r : RawValsetEntry) :
    Option ValsetResponseUnparsed :=
  match parseUint256 r.nonce, parsePowers r.powers with
  | some n, some ps => some ⟨n, ps, r.eth_addresses⟩
  | _, _ => none

/-! ## Transaction info resolution and the confirmation call trace -/

/-- Tx metadata triple of src/types.rs lines 207 to 211. -/
structure OptionalTXInfo where
  chain_id : String
  account_number : Nat
  sequence : Nat
deriving DecidableEq

/-- Network effects observable in the send_valset_confirm path: the account
endpoint read issued while resolving tx info, and the final transaction
submission. -/
inductive NetworkCall
  | accountRead
  | submitTx
deriving DecidableEq

/-- Modelled from the spec: maybe_get_optional_tx_info (src/utils.rs, a
repository file missing from the snapshot), per section 4.4: when chain
id, account number and sequence are all supplied they are returned
unchanged with no network call; when any is missing, a single read of the
account record fills in the gaps, and a failure of that lookup is
propagated as the result.  The lookup argument stands for the outcome the
account endpoint would produce if read; the second component records the
network calls issued. -/
def maybe_get_optional_tx_info (chain_id : Option String)
    (account_number sequence : Option Nat)
    (lookup : Except JsonRpcError OptionalTXInfo) :
    Except JsonRpcError OptionalTXInfo × List NetworkCall :=
  match chain_id, account_number, sequence with
  | some c, some a, some s => (Except.ok ⟨c, a, s⟩, [])
  | c, a, s =>
    match lookup with
    | Except.error e => (Except.error e, [NetworkCall.accountRead])
    | Except.ok onChain =>
      (Except.ok ⟨c.getD onChain.chain_id, a.getD onChain.account_number,
        s.getD onChain.sequence⟩, [NetworkCall.accountRead])

/-- Mirrors the effect order of send_valset_confirm in src/client/send.rs
lines 216 to 266: first the tx info resolution (with its possible account
read), whose failure is propagated at once by the question mark operator
on lines 232 to 234, then the checkpoint message construction whose
failure returns early, and only then the transaction submission.  The
value returned on success is the encoded checkpoint message; signing and
the submission response are outside the scope of this model, but the
submission network call is recorded in the trace. -/
def send_valset_confirm (peggy_id : String) (valset : ValsetResponse)
    (chain_id : Option String) (account_number sequence : Option Nat)
    (lookup : Except JsonRpcError OptionalTXInfo) :
    Except JsonRpcError (List Nat) × List NetworkCall :=
  let resolved := maybe_get_optional_tx_info chain_id account_number sequence lookup
  match resolved.1 with
  | Except.error e => (Except.error e, resolved.2)
  | Except.ok _ =>
    match checkpointMessage peggy_id valset.nonce valset.eth_addresses valset.powers with
    | Except.error e => (Except.error e, resolved.2)
    | Except.ok msg => (Except.ok msg, resolved.2 ++ [NetworkCall.submitTx])

/-! ## The retry state machine (retry_on_block, src/client/send.rs lines 36 to 72) -/

/-- Signed transaction in one of the three broadcast modes of the external
deep_space Transaction type; the payload stands for the already signed
transaction bytes, produced once before retry_on_block runs. -/
inductive Transaction (α : Type)
  | block (payload : α)
  | syncMode (payload : α)
  | asyncMode (payload : α)
deriving DecidableEq

/-- Payload of a transaction in any mode. -/
def Transaction.payload {α : Type} : Transaction α → α
  | Transaction.block p => p
  | Transaction.syncMode p => p
  | Transaction.asyncMode p => p

/-- One send attempt as issued by request_method: the transaction payload
passed (always a clone of the same signed transaction) and the timeout
handed to the call. -/
structure AttemptRecord (α : Type) where
  payload : α
  timeout : Int
deriving DecidableEq

deriving instance DecidableEq for Except

/-- Terminal state of a retry_on_block run: a returned result, a panic
from a negative duration subtraction, or exhausted modelling fuel. -/
inductive RunResult (ρ : Type)
  | finished (r : Except JsonRpcError ρ)
  | panicked
  | outOfFuel
deriving DecidableEq

/-- Whether a result is the one error the while let of retry_on_block
destructures: FailedToSend(Connect(Disconnected)). -/
def isTransientErr {ρ : Type} : Except JsonRpcError ρ → Bool
  | Except.error (JsonRpcError.failedToSend (SendRequestError.connect ConnectError.disconnected)) => true
  | _ => false

/-- The while loop of retry_on_block, src/client/send.rs lines 46 to 65.
T is the caller timeout, clock gives the elapsed time since start at each
successive Instant::now observation (index c), attempts gives the result
of each successive send (index i), p is the cloned transaction payload.
Each iteration re-checks the transient pattern; on a match it observes the
elapsed time and breaks if it exceeds T strictly, otherwise observes again,
computes the remaining timeout by duration subtraction (which panics when
negative) and issues the next attempt, recording payload and timeout.
Fuel bounds the number of modelled iterations. -/
def retryLoopGo {ρ α : Type} (T : Int) (clock : Nat → Int)
    (attempts : Nat → Except JsonRpcError ρ) (p : α) :
    Nat → Except JsonRpcError ρ → Nat → Nat →
    RunResult ρ × List (AttemptRecord α)
  | 0, res, _, _ =>
    if isTransientErr res then (RunResult.outOfFuel, []) else (RunResult.finished res, [])
  | Nat.succ fuel, res, i, c =>
    if isTransientErr res then
      if clock c > T then (RunResult.finished res, [])
      else
        let timeLeft := T - clock (c + 1)
        if timeLeft < 0 then (RunResult.panicked, [])
        else
          let next := retryLoopGo T clock attempts p fuel (attempts i) (i + 1) (c + 2)
          (next.1, ⟨p, timeLeft⟩ :: next.2)
    else (RunResult.finished res, [])

/-- Mirrors retry_on_block in src/client/send.rs lines 36 to 72: a Block
mode transaction is sent once with the full timeout and then resent by the
loop above while the transient pattern matches; any other mode is sent
exactly once with the full timeout and its result returned unchanged. -/
def retry_on_block {ρ α : Type} (T : Int) (clock : Nat → Int)
    (attempts : Nat → Except JsonRpcError ρ) (tx : Transaction α) (fuel : Nat) :
    RunResult ρ × List (AttemptRecord α) :=
  match tx with
  | Transaction.block p =>
    let next := retryLoopGo T clock attempts p fuel (attempts 0) 1 0
    (next.1, ⟨p, T⟩ :: next.2)
  | Transaction.syncMode p => (RunResult.finished (attempts 0), [⟨p, T⟩])
  | Transaction.asyncMode p => (RunResult.finished (attempts 0), [⟨p, T⟩])

/-! ## Helper lemmas -/

theorem filter_empty_addresses_map_some (as : List EthAddress) :
    filter_empty_addresses (as.map some) = Except.ok as := by
  induction as with
  | nil => rfl
  | cons a rest ih => simp [filter_empty_addresses, ih]

theorem filter_empty_addresses_ok (addrs : List (Option EthAddress)) :
    ∀ as : List EthAddress, filter_empty_addresses addrs = Except.ok as →
      addrs = as.map some := by
  induction addrs with
  | nil =>
    intro as h
    simp only [filter_empty_addresses] at h
    cases h
    rfl
  | cons hd tl ih =>
    intro as h
    cases hd with
    | none => simp [filter_empty_addresses] at h
    | some a =>
      cases hf : filter_empty_addresses tl with
      | error e =>
        simp only [filter_empty_addresses, hf] at h
        exact Except.noConfusion h
      | ok l =>
        simp only [filter_empty_addresses, hf] at h
        cases h
        simp [ih l hf]

theorem filter_empty_addresses_of_mem_none (addrs : List (Option EthAddress))
    (h : none ∈ addrs) :
    filter_empty_addresses addrs =
      Except.error (JsonRpcError.badInput "All Eth Addresses must be set") := by
  induction addrs with
  | nil => cases h
  | cons hd tl ih =>
    cases hd with
    | none => rfl
    | some a =>
      have htl : none ∈ tl := by
        cases h with
        | tail _ h => exact h
      simp [filter_empty_addresses, ih htl]

theorem encode_tokens_checkpoint_layout (s1 s2 : String) (n : Nat)
    (as : List EthAddress) (ps : List Nat) :
    encode_tokens [Token.fixedString s1, Token.fixedString s2, Token.uint n,
        Token.addressArray as, Token.uintArray ps] =
      fixedBytes32 s1 ++ fixedBytes32 s2 ++ beBytes32 n ++ beBytes32 160 ++
        beBytes32 (160 + (tokenTail (Token.addressArray as)).length) ++
        tokenTail (Token.addressArray as) ++ tokenTail (Token.uintArray ps) := by
  simp [encode_tokens, encodeTokensAux, tokenIsDynamic, tokenStaticBytes,
    List.append_assoc]

/-! ## C1 -/

/-- C1: whenever send_valset_confirm signs checkpoint bytes (the message
construction succeeds), every input address was set and the bytes are the
ABI encoding of exactly the five tokens in the claimed order: the
fixed-width bridge id, the fixed-width literal checkpoint tag, the nonce as
a big-endian fixed-width integer, then the address array, then the power
array.  The last conjunct exhibits the byte layout: the three fixed-width
head words, the two array offset words, then the two array tails in
order. -/
theorem checkpoint_tokens_order (pid : String) (nonce : Nat)
    (addrs : List (Option EthAddress)) (powers : List Nat) (msg : List Nat)
    (h : checkpointMessage pid nonce addrs powers = Except.ok msg) :
    ∃ as : List EthAddress, addrs = as.map some ∧
      msg = encode_tokens [Token.fixedString pid, Token.fixedString "checkpoint",
        Token.uint nonce, Token.addressArray as, Token.uintArray powers] ∧
      msg = fixedBytes32 pid ++ fixedBytes32 "checkpoint" ++ beBytes32 nonce ++
        beBytes32 160 ++
        beBytes32 (160 + (tokenTail (Token.addressArray as)).length) ++
        tokenTail (Token.addressArray as) ++ tokenTail (Token.uintArray powers) := by
  unfold checkpointMessage at h
  cases hf : filter_empty_addresses addrs with
  | error e => rw [hf] at h; cases h
  | ok as =>
    rw [hf] at h
    cases h
    exact ⟨as, filter_empty_addresses_ok addrs as hf, rfl,
      encode_tokens_checkpoint_layout pid "checkpoint" nonce as powers⟩

/-- Witness for C1 at a concrete input: a single set address and one
power. -/
theorem checkpoint_tokens_order_witness :
    ∃ as : List EthAddress,
      ([some zeroEthAddress] : List (Option EthAddress)) = as.map some ∧
      encode_tokens [Token.fixedString "test", Token.fixedString "checkpoint",
          Token.uint 1, Token.addressArray [zeroEthAddress], Token.uintArray [10]] =
        encode_tokens [Token.fixedString "test", Token.fixedString "checkpoint",
          Token.uint 1, Token.addressArray as, Token.uintArray [10]] ∧
      encode_tokens [Token.fixedString "test", Token.fixedString "checkpoint",
          Token.uint 1, Token.addressArray [zeroEthAddress], Token.uintArray [10]] =
        fixedBytes32 "test" ++ fixedBytes32 "checkpoint" ++ beBytes32 1 ++
          beBytes32 160 ++
          beBytes32 (160 + (tokenTail (Token.addressArray as)).length) ++
          tokenTail (Token.addressArray as) ++ tokenTail (Token.uintArray [10]) :=
  checkpoint_tokens_order "test" 1 [some zeroEthAddress] [10]
    (encode_tokens [Token.fixedString "test", Token.fixedString "checkpoint",
      Token.uint 1, Token.addressArray [zeroEthAddress], Token.uintArray [10]]) rfl

/-! ## C2 -/

/-- C2 counterexample: with a None entry present, the checkpoint path does
not zero-substitute: it rejects with BadInput, so its output differs from
the encoding with the zero address supplied explicitly. -/
theorem checkpoint_none_rejected_not_zero_substituted :
    checkpointMessage "test" 1 [some exAddr, none] [10, 20] =
      Except.error (JsonRpcError.badInput "All Eth Addresses must be set") ∧
    checkpointMessage "test" 1 [some exAddr, none] [10, 20] ≠
      checkpointMessage "test" 1 [some exAddr, some zeroEthAddress] [10, 20] := by
  constructor
  · rfl
  · decide

/-- C2 amended: for every address list containing at least one None, the
checkpoint path of send_valset_confirm produces no bytes at all: it fails
with BadInput, the MissingAddress style rejection; no 20 zero bytes are
substituted. -/
theorem checkpoint_rejects_missing_address (pid : String) (nonce : Nat)
    (addrs : List (Option EthAddress)) (powers : List Nat) (h : none ∈ addrs) :
    checkpointMessage pid nonce addrs powers =
      Except.error (JsonRpcError.badInput "All Eth Addresses must be set") := by
  unfold checkpointMessage
  rw [filter_empty_addresses_of_mem_none addrs h]

/-- Witness for the amended C2 at a concrete input. -/
theorem checkpoint_rejects_missing_address_witness :
    checkpointMessage "deploy" 3 [none] [5] =
      Except.error (JsonRpcError.badInput "All Eth Addresses must be set") :=
  checkpoint_rejects_missing_address "deploy" 3 [none] [5] (by simp)

/-! ## C3 -/

theorem convertEthAddresses_length (l : List String) :
    (convertEthAddresses l).length = l.length := by
  induction l with
  | nil => rfl
  | cons s rest ih => simp [convertEthAddresses, ih]

theorem convertEthAddresses_getElem (l : List String) :
    ∀ (i : Nat) (s : String), l[i]? = some s →
      (convertEthAddresses l)[i]? =
        some (if s.isEmpty then none else parseEthAddress s) := by
  induction l with
  | nil => intro i s h; simp at h
  | cons hd tl ih =>
    intro i s h
    cases i with
    | zero =>
      simp only [List.getElem?_cons_zero, Option.some.injEq] at h
      subst h
      by_cases he : hd.isEmpty
      · simp [convertEthAddresses, he]
      · cases hp : parseEthAddress hd <;> simp [convertEthAddresses, he, hp]
    | succ i =>
      simp only [List.getElem?_cons_succ] at h
      simpa [convertEthAddresses] using ih i s h

/-- C3: normalization of a raw valset entry converts every address string
in place: the output address sequence has the same length as the input,
powers are passed through, the length agreement between powers and
addresses is preserved, and at each index the result is None when the
string is empty or fails the strict parse and Some of the parsed address
otherwise.  The conversion is total (it never fails the whole call), as
its type here shows. -/
theorem convert_normalizes_addresses (v : ValsetResponseUnparsed) :
    (v.convert).eth_addresses.length = v.eth_addresses.length ∧
    (v.convert).powers = v.powers ∧
    (v.powers.length = v.eth_addresses.length →
      (v.convert).powers.length = (v.convert).eth_addresses.length) ∧
    ∀ (i : Nat) (s : String), v.eth_addresses[i]? = some s →
      (v.convert).eth_addresses[i]? =
        some (if s.isEmpty then none else parseEthAddress s) := by
  refine ⟨convertEthAddresses_length v.eth_addresses, rfl, ?_, ?_⟩
  · intro h
    simp [ValsetResponseUnparsed.convert, convertEthAddresses_length, h]
  · intro i s h
    exact convertEthAddresses_getElem v.eth_addresses i s h

/-- Witness for C3 at a concrete entry: an empty string and an unparseable
address string both normalize to None. -/
theorem convert_normalizes_addresses_witness :
    (ValsetResponseUnparsed.convert ⟨1, [10, 20], ["", "banana"]⟩).eth_addresses[1]? =
      some (if ("banana" : String).isEmpty then none else parseEthAddress "banana") :=
  (convert_normalizes_addresses ⟨1, [10, 20], ["", "banana"]⟩).2.2.2 1 "banana" rfl

/-! ## C4 -/

/-- C4 counterexample: a raw entry whose power string is unparseable fails
deserialization of the whole response instead of yielding 0 at that index,
while the same entry with a parseable power succeeds, power passed through
unchanged. -/
theorem unparseable_power_fails_response :
    deserializeValsetResponseUnparsed ⟨"1", ["banana"], [""]⟩ = none ∧
    deserializeValsetResponseUnparsed ⟨"1", ["7"], [""]⟩ = some ⟨1, [7], [""]⟩ := by
  constructor <;> decide

theorem parsePowers_eq_none (l : List String) (s : String) (hs : s ∈ l)
    (hp : parseUint256 s = none) : parsePowers l = none := by
  induction l with
  | nil => cases hs
  | cons hd tl ih =>
    cases hs with
    | head => cases hpt : parsePowers tl <;> simp [parsePowers, hp, hpt]
    | tail _ h => cases hph : parseUint256 hd <;> simp [parsePowers, hph, ih h]

/-- C4 amended: power strings go through the strict wire parse, so an
unparseable power string fails the whole response deserialization; no
index is degraded to 0, and convert passes the powers sequence through
unchanged. -/
theorem strict_powers_no_zero_degrade (r : RawValsetEntry) (s : String)
    (hs : s ∈ r.powers) (hp : parseUint256 s = none) :
    deserializeValsetResponseUnparsed r = none ∧
    ∀ v : ValsetResponseUnparsed, (ValsetResponseUnparsed.convert v).powers = v.powers := by
  constructor
  · unfold deserializeValsetResponseUnparsed
    rw [parsePowers_eq_none r.powers s hs hp]
    cases parseUint256 r.nonce <;> rfl
  · intro v; rfl

/-- Witness for the amended C4 at a concrete raw entry. -/
theorem strict_powers_no_zero_degrade_witness :
    deserializeValsetResponseUnparsed ⟨"2", ["banana", "7"], ["x"]⟩ = none :=
  (strict_powers_no_zero_degrade ⟨"2", ["banana", "7"], ["x"]⟩ "banana"
    (by simp) (by decide)).1

/-! ## C5 -/

/-- C5 counterexample: with the optional tx info left to be resolved (the
common call shape, as in the repository integration test) and the account
lookup succeeding, the MissingAddress style rejection of
send_valset_confirm happens only after the account read network call has
been issued, so the rejection does not precede every network call. -/
theorem strict_confirm_rejection_after_network_call :
    (send_valset_confirm "test" ⟨1, [10, 20], [some exAddr, none]⟩ none none none
        (Except.ok ⟨"peggy", 0, 0⟩)).1 =
      Except.error (JsonRpcError.badInput "All Eth Addresses must be set") ∧
    (send_valset_confirm "test" ⟨1, [10, 20], [some exAddr, none]⟩ none none none
        (Except.ok ⟨"peggy", 0, 0⟩)).2 = [NetworkCall.accountRead] := ⟨rfl, rfl⟩

/-- C5 amended: for a valset with a missing address, whenever the tx info
resolution yields a result (in particular whenever chain id, account
number and sequence are all supplied, in which case no network call is
made at all), send_valset_confirm fails with the BadInput rejection; the
call never reaches the transaction submission in any case; and when the
account lookup itself fails while resolving missing tx info, that lookup
error is propagated first and preempts the BadInput rejection. -/
theorem strict_confirm_rejects_before_submission (pid : String) (valset : ValsetResponse)
    (cid : Option String) (an seq : Option Nat)
    (lookup : Except JsonRpcError OptionalTXInfo)
    (h : none ∈ valset.eth_addresses) :
    (∀ info, (maybe_get_optional_tx_info cid an seq lookup).1 = Except.ok info →
      (send_valset_confirm pid valset cid an seq lookup).1 =
        Except.error (JsonRpcError.badInput "All Eth Addresses must be set")) ∧
    NetworkCall.submitTx ∉ (send_valset_confirm pid valset cid an seq lookup).2 ∧
    (∀ c a s, cid = some c → an = some a → seq = some s →
      (send_valset_confirm pid valset cid an seq lookup).2 = [] ∧
      (send_valset_confirm pid valset cid an seq lookup).1 =
        Except.error (JsonRpcError.badInput "All Eth Addresses must be set")) ∧
    (∀ e, (maybe_get_optional_tx_info cid an seq lookup).1 = Except.error e →
      (send_valset_confirm pid valset cid an seq lookup).1 = Except.error e) := by
  have hcm : checkpointMessage pid valset.nonce valset.eth_addresses valset.powers =
      Except.error (JsonRpcError.badInput "All Eth Addresses must be set") := by
    unfold checkpointMessage
    rw [filter_empty_addresses_of_mem_none valset.eth_addresses h]
  refine ⟨?_, ?_, ?_, ?_⟩
  · intro info hinfo
    simp [send_valset_confirm, hinfo, hcm]
  · cases hres : (maybe_get_optional_tx_info cid an seq lookup).1 with
    | error e =>
      simp only [send_valset_confirm, hres]
      cases cid <;> cases an <;> cases seq <;> cases lookup <;>
        simp [maybe_get_optional_tx_info]
    | ok info =>
      simp only [send_valset_confirm, hres, hcm]
      cases cid <;> cases an <;> cases seq <;> cases lookup <;>
        simp [maybe_get_optional_tx_info]
  · intro c a s hc ha hs
    subst hc; subst ha; subst hs
    constructor
    · simp [send_valset_confirm, maybe_get_optional_tx_info, hcm]
    · simp [send_valset_confirm, maybe_get_optional_tx_info, hcm]
  · intro e he
    simp [send_valset_confirm, he]

/-- Witness for the amended C5: with all tx info supplied the rejection
happens with no network call at all, even when the account endpoint would
have failed had it been read. -/
theorem strict_confirm_rejects_before_submission_witness :
    (send_valset_confirm "x" ⟨5, [1], [none]⟩ (some "c") (some 0) (some 0)
        (Except.error (JsonRpcError.badResponse "node down"))).2 = [] ∧
    (send_valset_confirm "x" ⟨5, [1], [none]⟩ (some "c") (some 0) (some 0)
        (Except.error (JsonRpcError.badResponse "node down"))).1 =
      Except.error (JsonRpcError.badInput "All Eth Addresses must be set") :=
  (strict_confirm_rejects_before_submission "x" ⟨5, [1], [none]⟩ (some "c") (some 0)
      (some 0) (Except.error (JsonRpcError.badResponse "node down"))
      (by simp)).2.2.1 "c" 0 0 rfl rfl rfl

/-! ## Retry loop helper lemmas -/

theorem retryLoopGo_not_transient {ρ α : Type} (T : Int) (clock : Nat → Int)
    (attempts : Nat → Except JsonRpcError ρ) (p : α) (fuel : Nat)
    (res : Except JsonRpcError ρ) (i c : Nat) (h : isTransientErr res = false) :
    retryLoopGo T clock attempts p fuel res i c = (RunResult.finished res, []) := by
  cases fuel <;> simp [retryLoopGo, h]

theorem retryLoopGo_guard_exceeded {ρ α : Type} (T : Int) (clock : Nat → Int)
    (attempts : Nat → Except JsonRpcError ρ) (p : α) (fuel : Nat)
    (res : Except JsonRpcError ρ) (i c : Nat) (hg : T < clock c) :
    (retryLoopGo T clock attempts p fuel res i c).2 = [] := by
  cases fuel with
  | zero => cases h : isTransientErr res <;> simp [retryLoopGo, h]
  | succ fuel => cases h : isTransientErr res <;> simp [retryLoopGo, h, hg]

theorem retryLoopGo_timeout_bounds {ρ α : Type} (T : Int) (clock : Nat → Int)
    (attempts : Nat → Except JsonRpcError ρ) (p : α) (hc : ∀ k, 0 ≤ clock k) :
    ∀ (fuel : Nat) (res : Except JsonRpcError ρ) (i c : Nat),
      ∀ rec ∈ (retryLoopGo T clock attempts p fuel res i c).2,
        0 ≤ rec.timeout ∧ rec.timeout ≤ T := by
  intro fuel
  induction fuel with
  | zero =>
    intro res i c rec hrec
    cases h : isTransientErr res <;> simp [retryLoopGo, h] at hrec
  | succ fuel ih =>
    intro res i c rec hrec
    cases h : isTransientErr res
    · simp [retryLoopGo, h] at hrec
    · by_cases hg : clock c > T
      · simp [retryLoopGo, h, hg] at hrec
      · by_cases hl : T - clock (c + 1) < 0
        · simp [retryLoopGo, h, hg, hl] at hrec
        · simp only [retryLoopGo, h, if_true, if_neg hg, if_neg hl] at hrec
          cases hrec with
          | head =>
            refine ⟨not_lt.mp hl, ?_⟩
            show T - clock (c + 1) ≤ T
            have h2 := hc (c + 1)
            omega
          | tail _ h2 => exact ih (attempts i) (i + 1) (c + 2) rec h2

/-! ## C6 -/

/-- C6 counterexample: with total timeout 10 and a coarse clock that reads
an elapsed time of exactly 10, the guard (a strict comparison) passes and
a retry attempt is issued whose computed remaining timeout is 0, so an
attempt whose remaining timeout is less than or equal to 0 does occur. -/
theorem retry_attempt_with_zero_remaining_timeout :
    (retry_on_block 10 (fun _ => (10 : Int))
        (fun i => if i = 0 then Except.error transientErr else Except.ok (42 : Nat))
        (Transaction.block (0 : Nat)) 5) =
      (RunResult.finished (Except.ok 42), [⟨0, 10⟩, ⟨0, 0⟩]) ∧
    ((retry_on_block 10 (fun _ => (10 : Int))
        (fun i => if i = 0 then Except.error transientErr else Except.ok (42 : Nat))
        (Transaction.block (0 : Nat)) 5).2.map AttemptRecord.timeout) = [10, 0] := by
  constructor <;> decide

/-- C6 amended: the remaining timeout computed for every attempt of a
Block mode run lies between 0 and the total timeout T inclusive (an
attempt with remaining timeout exactly 0 is possible, as the
counterexample shows, but never a negative one, which would panic in the
duration subtraction before the attempt), and once the guard observes an
elapsed time strictly above T no further attempt is started: only the
initial attempt remains in the trace. -/
theorem retry_budget_amended {ρ α : Type} (T : Int) (clock : Nat → Int)
    (attempts : Nat → Except JsonRpcError ρ) (p : α) (fuel : Nat)
    (hT : 0 ≤ T) (hc : ∀ k, 0 ≤ clock k) :
    (∀ rec ∈ (retry_on_block T clock attempts (Transaction.block p) fuel).2,
      0 ≤ rec.timeout ∧ rec.timeout ≤ T) ∧
    ((∀ k, T < clock k) →
      (retry_on_block T clock attempts (Transaction.block p) fuel).2 = [⟨p, T⟩]) := by
  constructor
  · intro rec hrec
    simp only [retry_on_block] at hrec
    cases hrec with
    | head => exact ⟨hT, le_refl T⟩
    | tail _ h2 =>
      exact retryLoopGo_timeout_bounds T clock attempts p hc fuel (attempts 0) 1 0 rec h2
  · intro hk
    simp only [retry_on_block]
    rw [retryLoopGo_guard_exceeded T clock attempts p fuel (attempts 0) 1 0 (hk 0)]

/-- Witness for the amended C6: with the clock already beyond the budget
at the first check, the trace is the single initial attempt. -/
theorem retry_budget_amended_witness :
    (retry_on_block 10 (fun _ => (11 : Int))
        (fun _ => (Except.error transientErr : Except JsonRpcError Nat))
        (Transaction.block (0 : Nat)) 3).2 = [⟨0, 10⟩] :=
  (retry_budget_amended 10 (fun _ => (11 : Int))
      (fun _ => (Except.error transientErr : Except JsonRpcError Nat)) 0 3
      (by decide) (by intro k; norm_num)).2 (by intro k; norm_num)

/-! ## C7 -/

theorem isTransientErr_iff {ρ : Type} (res : Except JsonRpcError ρ) :
    isTransientErr res = true ↔ res = Except.error transientErr := by
  cases res with
  | ok v => simp [isTransientErr]
  | error e =>
    cases e with
    | badResponse s => simp [isTransientErr, transientErr]
    | failedToSend se =>
      cases se with
      | connect ce => cases ce <;> simp [isTransientErr, transientErr]
      | timedOut => simp [isTransientErr, transientErr]
    | responseError a b c => simp [isTransientErr, transientErr]
    | badInput s => simp [isTransientErr, transientErr]

theorem retryLoopGo_trace_nonempty {ρ α : Type} (T : Int) (clock : Nat → Int)
    (attempts : Nat → Except JsonRpcError ρ) (p : α) (fuel : Nat)
    (res : Except JsonRpcError ρ) (i c : Nat)
    (h : (retryLoopGo T clock attempts p fuel res i c).2 ≠ []) :
    res = Except.error transientErr := by
  by_contra hne
  have hf : isTransientErr res = false := by
    cases hh : isTransientErr res
    · rfl
    · exact absurd ((isTransientErr_iff res).mp hh) hne
  rw [retryLoopGo_not_transient T clock attempts p fuel res i c hf] at h
  exact h rfl

theorem retryLoopGo_resubmit_requires_transient {ρ α : Type} (T : Int)
    (clock : Nat → Int) (attempts : Nat → Except JsonRpcError ρ) (p : α) :
    ∀ (fuel : Nat) (res : Except JsonRpcError ρ) (i c j : Nat),
      j + 2 ≤ (retryLoopGo T clock attempts p fuel res i c).2.length →
      attempts (i + j) = Except.error transientErr := by
  intro fuel
  induction fuel with
  | zero =>
    intro res i c j hj
    cases h : isTransientErr res <;> simp [retryLoopGo, h] at hj
  | succ fuel ih =>
    intro res i c j hj
    cases h : isTransientErr res
    · simp [retryLoopGo, h] at hj
    · by_cases hg : clock c > T
      · simp [retryLoopGo, h, hg] at hj
      · by_cases hl : T - clock (c + 1) < 0
        · simp [retryLoopGo, h, hg, hl] at hj
        · simp only [retryLoopGo, h, if_true, if_neg hg, if_neg hl,
            List.length_cons] at hj
          cases j with
          | zero =>
            have hlen : 0 <
                (retryLoopGo T clock attempts p fuel (attempts i) (i + 1) (c + 2)).2.length := by
              omega
            have hne := List.length_pos.mp hlen
            have := retryLoopGo_trace_nonempty T clock attempts p fuel
              (attempts i) (i + 1) (c + 2) hne
            simpa using this
          | succ j =>
            have hj2 : j + 2 ≤
                (retryLoopGo T clock attempts p fuel (attempts i) (i + 1) (c + 2)).2.length := by
              omega
            have h3 := ih (attempts i) (i + 1) (c + 2) j hj2
            have heq : i + 1 + j = i + (j + 1) := by omega
            rw [heq] at h3
            exact h3

/-- C7 counterexample: a Block mode submission whose first attempt fails
with the transient connection-dropped error is nevertheless not
resubmitted when the elapsed time already exceeds the budget, so the
failure class alone does not imply a resubmission. -/
theorem transient_failure_not_resubmitted_after_budget :
    (retry_on_block 10 (fun _ => (11 : Int))
        (fun _ => (Except.error transientErr : Except JsonRpcError Nat))
        (Transaction.block (0 : Nat)) 5) =
      (RunResult.finished (Except.error transientErr), [⟨0, 10⟩]) := by decide

/-- C7 amended: a resubmission happens only after a transient
FailedToSend(Connect(Disconnected)) failure: any other first result, error
or success, is returned unchanged after exactly one attempt and is never
retried, and every attempt of a run except possibly the last one failed
with the transient error. -/
theorem retry_only_on_transient {ρ α : Type} (T : Int) (clock : Nat → Int)
    (attempts : Nat → Except JsonRpcError ρ) (p : α) (fuel : Nat) :
    (attempts 0 ≠ Except.error transientErr →
      retry_on_block T clock attempts (Transaction.block p) fuel =
        (RunResult.finished (attempts 0), [⟨p, T⟩])) ∧
    (∀ j, j + 2 ≤ (retry_on_block T clock attempts (Transaction.block p) fuel).2.length →
      attempts j = Except.error transientErr) := by
  constructor
  · intro hne
    have hf : isTransientErr (attempts 0) = false := by
      cases hh : isTransientErr (attempts 0)
      · rfl
      · exact absurd ((isTransientErr_iff (attempts 0)).mp hh) hne
    simp only [retry_on_block,
      retryLoopGo_not_transient T clock attempts p fuel (attempts 0) 1 0 hf]
  · intro j hj
    simp only [retry_on_block, List.length_cons] at hj
    cases j with
    | zero =>
      have hlen : 0 < (retryLoopGo T clock attempts p fuel (attempts 0) 1 0).2.length := by
        omega
      exact retryLoopGo_trace_nonempty T clock attempts p fuel (attempts 0) 1 0
        (List.length_pos.mp hlen)
    | succ j =>
      have hj2 : j + 2 ≤ (retryLoopGo T clock attempts p fuel (attempts 0) 1 0).2.length := by
        omega
      have h3 := retryLoopGo_resubmit_requires_transient T clock attempts p fuel
        (attempts 0) 1 0 j hj2
      have heq : 1 + j = j + 1 := by omega
      rw [heq] at h3
      exact h3

/-- Witness for the amended C7: an application level rejection
(insufficient funds) is returned after exactly one attempt, never
retried. -/
theorem retry_only_on_transient_witness :
    retry_on_block 10 (fun _ => (0 : Int))
        (fun _ => (Except.error (JsonRpcError.responseError 5 "insufficient funds" "") :
          Except JsonRpcError Nat))
        (Transaction.block (0 : Nat)) 5 =
      (RunResult.finished
        (Except.error (JsonRpcError.responseError 5 "insufficient funds" "")),
        [⟨0, 10⟩]) :=
  (retry_only_on_transient 10 (fun _ => (0 : Int))
      (fun _ => (Except.error (JsonRpcError.responseError 5 "insufficient funds" "") :
        Except JsonRpcError Nat)) 0 5).1 (by decide)

/-! ## C8 -/

/-- C8: a Block mode submission whose first attempt fails with the
transient error and whose second attempt succeeds (within the budget)
returns the same finished result as one that succeeds immediately,
performs exactly 2 send attempts, and every attempt carries the identical
already signed transaction payload: no new payload is produced for the
retry. -/
theorem retry_transient_then_success {ρ α : Type} (T : Int) (clock : Nat → Int)
    (v : ρ) (p : α) (fuel : Nat) (h0 : clock 0 ≤ T) (h1 : 0 ≤ T - clock 1) :
    retry_on_block T clock
        (fun i => if i = 0 then Except.error transientErr else Except.ok v)
        (Transaction.block p) (fuel + 1) =
      (RunResult.finished (Except.ok v), [⟨p, T⟩, ⟨p, T - clock 1⟩]) ∧
    retry_on_block T clock (fun _ => Except.ok v) (Transaction.block p) (fuel + 1) =
      (RunResult.finished (Except.ok v), [⟨p, T⟩]) ∧
    (retry_on_block T clock
        (fun i => if i = 0 then Except.error transientErr else Except.ok v)
        (Transaction.block p) (fuel + 1)).2.length = 2 ∧
    (∀ rec ∈ (retry_on_block T clock
        (fun i => if i = 0 then Except.error transientErr else Except.ok v)
        (Transaction.block p) (fuel + 1)).2, rec.payload = p) ∧
    (retry_on_block T clock
        (fun i => if i = 0 then Except.error transientErr else Except.ok v)
        (Transaction.block p) (fuel + 1)).1 =
      (retry_on_block T clock (fun _ => Except.ok v) (Transaction.block p) (fuel + 1)).1 := by
  have hnt : isTransientErr (Except.ok v : Except JsonRpcError ρ) = false := rfl
  have hrun2 : retry_on_block T clock (fun _ => Except.ok v)
      (Transaction.block p) (fuel + 1) =
      (RunResult.finished (Except.ok v), [⟨p, T⟩]) := by
    simp only [retry_on_block,
      retryLoopGo_not_transient T clock (fun _ => Except.ok v) p (fuel + 1)
        (Except.ok v) 1 0 hnt]
  have hinner : retryLoopGo T clock
      (fun i => if i = 0 then Except.error transientErr else Except.ok v) p fuel
      (Except.ok v) 2 2 = (RunResult.finished (Except.ok v), []) :=
    retryLoopGo_not_transient T clock _ p fuel (Except.ok v) 2 2 hnt
  have hrun1 : retry_on_block T clock
      (fun i => if i = 0 then Except.error transientErr else Except.ok v)
      (Transaction.block p) (fuel + 1) =
      (RunResult.finished (Except.ok v), [⟨p, T⟩, ⟨p, T - clock 1⟩]) := by
    simp only [retry_on_block, retryLoopGo, if_neg (not_lt.mpr h0),
      if_neg (not_lt.mpr h1), reduceIte, isTransientErr, transientErr]
    simp only [transientErr] at hinner
    simp [hinner]
  refine ⟨hrun1, hrun2, ?_, ?_, ?_⟩
  · rw [hrun1]; rfl
  · intro rec hrec
    rw [hrun1] at hrec
    cases hrec with
    | head => rfl
    | tail _ h2 =>
      cases h2 with
      | head => rfl
      | tail _ h3 => cases h3
  · rw [hrun1, hrun2]

/-- Witness for C8 at a concrete clock and payload: one transient failure
then success yields the same result as immediate success, two attempts,
identical payload. -/
theorem retry_transient_then_success_witness :
    retry_on_block 10 (fun k => (k : Int))
        (fun i => if i = 0 then Except.error transientErr else Except.ok (42 : Nat))
        (Transaction.block (7 : Nat)) 1 =
      (RunResult.finished (Except.ok 42), [⟨7, 10⟩, ⟨7, 9⟩]) := by
  have h := (retry_transient_then_success 10 (fun k => (k : Int)) (42 : Nat)
    (7 : Nat) 0 (by norm_num) (by norm_num)).1
  simpa using h

/-! ## C10 -/

/-- C10: a transaction that is not in Block send mode is sent exactly once
with the full timeout and its first attempt result is returned unchanged,
whatever that result is; the retry loop applies only to Block mode. -/
theorem non_block_single_attempt {ρ α : Type} (T : Int) (clock : Nat → Int)
    (attempts : Nat → Except JsonRpcError ρ) (fuel : Nat) (tx : Transaction α)
    (h : ∀ q, tx ≠ Transaction.block q) :
    retry_on_block T clock attempts tx fuel =
      (RunResult.finished (attempts 0), [⟨tx.payload, T⟩]) := by
  cases tx with
  | block p => exact absurd rfl (h p)
  | syncMode p => rfl
  | asyncMode p => rfl

/-- Witness for C10: a sync mode transaction whose attempt fails with the
transient error is still not retried: one attempt, result unchanged. -/
theorem non_block_single_attempt_witness :
    retry_on_block 10 (fun _ => (0 : Int))
        (fun _ => (Except.error transientErr : Except JsonRpcError Nat))
        (Transaction.syncMode (3 : Nat)) 5 =
      (RunResult.finished (Except.error transientErr), [⟨3, 10⟩]) :=
  non_block_single_attempt 10 (fun _ => (0 : Int))
    (fun _ => (Except.error transientErr : Except JsonRpcError Nat)) 5
    (Transaction.syncMode 3) (fun _ hq => Transaction.noConfusion hq)

/-! ## C9 -/

/-- C9: wrapper normalization changes only the address field: height,
nonce and the powers sequence are passed through unchanged. -/
theorem wrapper_convert_frame (w : ValsetResponseUnparsedWrapper) :
    (w.convert).height = w.height ∧
    (w.convert).result.nonce = w.result.nonce ∧
    (w.convert).result.powers = w.result.powers :=
  ⟨rfl, rfl, rfl⟩
